import Mathlib

/-!
Verification of the Corrected Age Calculator's age-calculation engine.

The engine (src/domain/age/utils.ts) works on JavaScript `Date` values that it
first normalizes to UTC midnight, so every date it ever computes with is a
plain proleptic-Gregorian calendar date.  We therefore model a date as a
civil (year, month, day) triple and give it an absolute day number; at UTC
midnight a JavaScript timestamp is exactly 86400000 times such a day number,
which lets the millisecond-based arithmetic of the code be represented
exactly.  date-fns calendar functions (differenceInCalendarDays, addDays,
addMonths, differenceInYears, differenceInMonths, intervalToDuration, v3/v4
semantics) are embedded on this model; JavaScript `Date` component
normalization (setDate / setMonth overflow) is embedded where date-fns relies
on it.  Functions that `throw` are embedded as `Except String`.
-/

/-- A calendar date at day granularity (the engine normalizes every `Date`
to UTC midnight before any arithmetic, so this is the whole state). -/
structure CalDate where
  year : Int
  month : Int
  day : Int
  deriving Repr, DecidableEq

/-- Gregorian leap-year rule, as JavaScript `Date` implements it. -/
def IsLeap (y : Int) : Prop := (y % 4 = 0 ∧ y % 100 ≠ 0) ∨ y % 400 = 0

instance (y : Int) : Decidable (IsLeap y) := by unfold IsLeap; infer_instance

/-- Length of month `m` of year `y` in the proleptic Gregorian calendar. -/
def daysInMonth (y m : Int) : Int :=
  if m = 2 then (if IsLeap y then 29 else 28)
  else if m = 4 ∨ m = 6 ∨ m = 9 ∨ m = 11 then 30 else 31

/-- Days before month `m` in a non-leap year: 0, 31, 59, 90, 120, 151,
181, 212, 243, 273, 304, 334 for m = 1..12 (the closed form replaces the
table; both agree on 1..12). -/
def cumMonths (m : Int) : Int :=
  if m ≤ 2 then 31 * (m - 1) else (153 * (m - 3) + 2) / 5 + 59

/-- Days before month `m` of year `y`, counted from January 1 of `y`. -/
def daysBeforeMonth (y m : Int) : Int :=
  cumMonths m + (if 3 ≤ m ∧ IsLeap y then 1 else 0)

/-- 1 on leap years, 0 otherwise. -/
def leapCorr (y : Int) : Int := if IsLeap y then 1 else 0

/-- Day count from the fixed reference point to January 1 of year `y`;
chosen so that consecutive years differ by the actual year length. -/
def daysBeforeYear (y : Int) : Int :=
  365 * y + y / 4 - y / 100 + y / 400 - leapCorr y

/-- Absolute day number of a calendar date.  Two UTC-midnight `Date`s
differ by `86400000 * (difference of their day numbers)` milliseconds. -/
def toDayNumber (d : CalDate) : Int :=
  daysBeforeYear d.year + daysBeforeMonth d.year d.month + d.day - 1

/-- Well-formedness of a civil triple (what a real `Date` always satisfies). -/
def ValidDate (d : CalDate) : Prop :=
  1 ≤ d.month ∧ d.month ≤ 12 ∧ 1 ≤ d.day ∧ d.day ≤ daysInMonth d.year d.month

instance (d : CalDate) : Decidable (ValidDate d) := by unfold ValidDate; infer_instance

/-- Inverse of `toDayNumber` (civil-from-days, Howard Hinnant's algorithm,
shifted to this file's day-number origin).  Used to embed date-fns `addDays`,
which at UTC midnight lands on the calendar date that many days later. -/
def fromDayNumber (n : Int) : CalDate :=
  let z := n - 59
  let era := z / 146097
  let doe := z - era * 146097
  let yoe := (doe - doe / 1460 + doe / 36524 - doe / 146096) / 365
  let y := yoe + era * 400
  let doy := doe - (365 * yoe + yoe / 4 - yoe / 100)
  let mp := (5 * doy + 2) / 153
  let d := doy - (153 * mp + 2) / 5 + 1
  let m := if mp < 10 then mp + 3 else mp - 9
  ⟨y + (if m ≤ 2 then 1 else 0), m, d⟩

/-- date-fns `addDays` at UTC midnight: the calendar date `n` days later. -/
def addDays (x : CalDate) (n : Int) : CalDate :=
  fromDayNumber (toDayNumber x + n)

/-- JavaScript truncated remainder (the `%` operator): sign follows the
dividend, unlike Lean's euclidean `%`. -/
def jsRem (a b : Int) : Int := if a < 0 then -((-a) % b) else a % b

/-! ## Data model (src/domain/age/types.ts) -/

/-- `WeeksDays` of types.ts. -/
structure WeeksDays where
  weeks : Int
  days : Int
  deriving Repr, DecidableEq

/-- `GestationalAge` of types.ts. -/
structure GestationalAge where
  weeks : Int
  days : Int
  deriving Repr, DecidableEq

/-- `AgeBreakdown` of types.ts. -/
structure AgeBreakdown where
  years : Int
  months : Int
  weeks : Int
  days : Int
  deriving Repr, DecidableEq

/-- `CalculatorInputs` of types.ts. -/
structure CalculatorInputs where
  birthDate : CalDate
  assessmentDate : CalDate
  gaBirth : GestationalAge
  useCorrection : Bool
  deriving Repr, DecidableEq

/-- The `pna` field of `CalculatorResults`. -/
structure PnaResult where
  weeksDays : WeeksDays
  calendar : AgeBreakdown
  deriving Repr, DecidableEq

/-- The `corrected` field of `CalculatorResults`. -/
structure CorrectedResult where
  weeksDays : WeeksDays
  days : Int
  calendar : AgeBreakdown
  deriving Repr, DecidableEq

/-- The `metadata` field of `CalculatorResults`; `gaBirthWeeks` is the
fractional-week float `weeks + days / 7`, modelled exactly as a rational. -/
structure ResultMetadata where
  isCorrectionApplied : Bool
  isPremature : Bool
  correctionRecommendedUntilMonths : Int
  gaBirthWeeks : Rat
  deriving Repr, DecidableEq

/-- `CalculatorResults` of types.ts. -/
structure CalculatorResults where
  pna : PnaResult
  pnaDays : Int
  pma : WeeksDays
  pmaDays : Int
  corrected : CorrectedResult
  metadata : ResultMetadata
  deriving Repr, DecidableEq

/-! ## Day-count primitives (src/domain/age/utils.ts)

`Number.isFinite` guards are vacuous over `Int` and are omitted; every other
guard and branch is kept, with `throw` embedded as `Except.error` carrying
the thrown message. -/

/-- `toDaysFromWeeksDays` of utils.ts. -/
def toDaysFromWeeksDays (weeksDays : WeeksDays) : Except String Int :=
  if weeksDays.days < 0 ∨ weeksDays.days > 6 then .error "Days must be in [0..6]"
  else if weeksDays.weeks < 0 then .error "Weeks must be non-negative"
  else .ok (weeksDays.weeks * 7 + weeksDays.days)

/-- `toWeeksDaysFromDays` of utils.ts (on the non-error branch the input is
non-negative, where JavaScript `Math.floor` and `%` agree with euclidean
division). -/
def toWeeksDaysFromDays (totalDays : Int) : Except String WeeksDays :=
  if totalDays < 0 then .error "totalDays must be a non-negative finite number"
  else .ok ⟨totalDays / 7, totalDays % 7⟩

/-- date-fns `differenceInCalendarDays` at UTC midnight: exact calendar-day
difference. -/
def differenceInCalendarDays (a b : CalDate) : Int := toDayNumber a - toDayNumber b

/-- `calcPnaDays` of utils.ts (`toUtcStartOfDay` is the identity in this
day-granularity model). -/
def calcPnaDays (birthDate assessmentDate : CalDate) : Except String Int :=
  let diff := differenceInCalendarDays assessmentDate birthDate
  if diff < 0 then .error "Assessment date must be on or after birth date"
  else .ok diff

/-- `calcPmaDays` of utils.ts. -/
def calcPmaDays (gaBirthDays pnaDays : Int) : Except String Int :=
  if gaBirthDays < 0 then .error "gaBirthDays must be non-negative"
  else if pnaDays < 0 then .error "pnaDays must be non-negative"
  else .ok (gaBirthDays + pnaDays)

/-- `calcCorrectionDays` of utils.ts. -/
def calcCorrectionDays (gaBirthDays : Int) (termWeeks : Int := 40) : Except String Int :=
  if gaBirthDays < 0 then .error "gaBirthDays must be non-negative"
  else if termWeeks ≤ 0 then .error "termWeeks must be positive"
  else .ok (max 0 (termWeeks * 7 - gaBirthDays))

/-- `calcCorrectedAgeDays` of utils.ts: note the `Math.max(0, ...)` floor. -/
def calcCorrectedAgeDays (pnaDays correctionDays : Int) : Except String Int :=
  if pnaDays < 0 then .error "pnaDays must be non-negative"
  else if correctionDays < 0 then .error "correctionDays must be non-negative"
  else .ok (max 0 (pnaDays - correctionDays))

/-- `validateGestationalAge` of utils.ts. -/
def validateGestationalAge (ga : GestationalAge) : Except String Unit :=
  if ga.weeks < 22 ∨ ga.weeks > 42 then .error "Gestational age weeks must be in [22..42]"
  else if ga.days < 0 ∨ ga.days > 6 then .error "Gestational age days must be in [0..6]"
  else .ok ()

/-! ## date-fns calendar layer (v3/v4 semantics, dates at UTC midnight)

`differenceInYears`, `differenceInMonths` and `intervalToDuration` are
embedded statement-by-statement.  JavaScript `Date.setDate` / `setMonth`
normalize day-of-month overflow into the following month; the overflow the
library produces here is always at most a few days, so one month of rolling
suffices and is embedded as `rollMonthOnce`. -/

/-- date-fns `compareAsc`: -1, 0 or 1 by timestamp order. -/
def compareAscD (a b : CalDate) : Int :=
  if toDayNumber a - toDayNumber b < 0 then -1
  else if 0 < toDayNumber a - toDayNumber b then 1 else 0

/-- date-fns `differenceInCalendarMonths`. -/
def differenceInCalendarMonths (a b : CalDate) : Int :=
  12 * (a.year - b.year) + (a.month - b.month)

/-- date-fns `isLastDayOfMonth`. -/
def isLastDayOfMonth (d : CalDate) : Prop := d.day = daysInMonth d.year d.month

instance (d : CalDate) : Decidable (isLastDayOfMonth d) := by
  unfold isLastDayOfMonth; infer_instance

/-- JavaScript day-of-month overflow normalization (one month of rolling,
enough for every overflow arising below). -/
def rollMonthOnce (y m d : Int) : CalDate :=
  if d ≤ daysInMonth y m then ⟨y, m, d⟩
  else if m = 12 then ⟨y + 1, 1, d - 31⟩
  else ⟨y, m + 1, d - daysInMonth y m⟩

/-- JavaScript `Date.prototype.setDate`. -/
def jsSetDate (x : CalDate) (n : Int) : CalDate := rollMonthOnce x.year x.month n

/-- JavaScript `Date.prototype.setMonth` with a 0-based month index `v`
(possibly negative or beyond 11): the year is renormalized first, then
day-of-month overflow rolls forward. -/
def jsSetMonth (x : CalDate) (v : Int) : CalDate :=
  let t := 12 * x.year + v
  rollMonthOnce (t / 12) (t % 12 + 1) x.day

/-- date-fns `addMonths`: shift the month index, clamping the day to the
last day of the target month. -/
def dfAddMonths (x : CalDate) (n : Int) : CalDate :=
  let t := 12 * x.year + (x.month - 1) + n
  let y := t / 12
  let m := t % 12 + 1
  if x.day ≥ daysInMonth y m then ⟨y, m, daysInMonth y m⟩ else ⟨y, m, x.day⟩

/-- date-fns `differenceInYears`: full years between the dates, decided by
re-anchoring both month/day pairs in the leap year 1584 and comparing. -/
def dfDiffInYears (later earlier : CalDate) : Int :=
  let sign := compareAscD later earlier
  let diff := |later.year - earlier.year|
  let notFull :=
    if compareAscD ⟨1584, later.month, later.day⟩ ⟨1584, earlier.month, earlier.day⟩ = -sign
    then (1 : Int) else 0
  sign * (diff - notFull)

/-- date-fns `differenceInMonths`: full months between the dates, with the
end-of-February `setDate(30)` adjustment and the last-day-of-month special
case of the library. -/
def dfDiffInMonths (later earlier : CalDate) : Int :=
  let sign := compareAscD later earlier
  let diff := |differenceInCalendarMonths later earlier|
  if diff < 1 then 0
  else
    let w0 := if later.month = 2 ∧ later.day > 27 then jsSetDate later 30 else later
    let w1 := jsSetMonth w0 ((w0.month - 1) - sign * diff)
    let notFull : Int :=
      if isLastDayOfMonth later ∧ diff = 1 ∧ compareAscD later earlier = 1 then 0
      else if compareAscD w1 earlier = -sign then 1 else 0
    sign * (diff - notFull)

/-! date-fns `intervalToDuration` for `start <= end` at UTC midnight, split
into its successive intermediate values (years; start advanced by the years;
months; further advanced by the months; remaining days).  `differenceInDays`
between UTC midnights is the exact calendar-day difference. -/

/-- Years component of `intervalToDuration interval`. -/
def ituYears (start lend : CalDate) : Int := dfDiffInYears lend start

/-- The `remainingMonths` date of `intervalToDuration`: the start advanced
by the years component (`add` skips `addMonths` when the amount is zero). -/
def ituRemMonths (start lend : CalDate) : CalDate :=
  if ituYears start lend = 0 then start else dfAddMonths start (12 * ituYears start lend)

/-- Months component of `intervalToDuration`. -/
def ituMonths (start lend : CalDate) : Int := dfDiffInMonths lend (ituRemMonths start lend)

/-- `add(remainingMonths, months)` of `intervalToDuration`. -/
def ituRemDays (start lend : CalDate) : CalDate :=
  if ituMonths start lend = 0 then ituRemMonths start lend
  else dfAddMonths (ituRemMonths start lend) (ituMonths start lend)

/-- Days component of `intervalToDuration` (exact at UTC midnight). -/
def ituDaysTotal (start lend : CalDate) : Int :=
  toDayNumber lend - toDayNumber (ituRemDays start lend)

/-- `calcCalendarBreakdownFromBirth` of utils.ts: zero breakdown when the
assessment precedes the birth date, otherwise `intervalToDuration` with the
days component split into weeks via `Math.floor` and JavaScript `%`. -/
def calcCalendarBreakdownFromBirth (birthDate assessmentDate : CalDate) : AgeBreakdown :=
  if toDayNumber assessmentDate < toDayNumber birthDate then ⟨0, 0, 0, 0⟩
  else
    let daysTotal := ituDaysTotal birthDate assessmentDate
    ⟨ituYears birthDate assessmentDate, ituMonths birthDate assessmentDate,
      daysTotal / 7, jsRem daysTotal 7⟩

/-- `calcCalendarBreakdownFromCorrected` of utils.ts: the same breakdown
measured from `birthDate + correctionDays`. -/
def calcCalendarBreakdownFromCorrected
    (birthDate : CalDate) (correctionDays : Int) (assessmentDate : CalDate) : AgeBreakdown :=
  let correctedBirthDate := addDays birthDate correctionDays
  if toDayNumber assessmentDate < toDayNumber correctedBirthDate then ⟨0, 0, 0, 0⟩
  else
    let daysTotal := ituDaysTotal correctedBirthDate assessmentDate
    ⟨ituYears correctedBirthDate assessmentDate, ituMonths correctedBirthDate assessmentDate,
      daysTotal / 7, jsRem daysTotal 7⟩

/-- `computeCalculatorResults` of utils.ts, with the calls in source order
(any thrown error aborts the whole computation with no result). -/
def computeCalculatorResults (inputs : CalculatorInputs) : Except String CalculatorResults := do
  let pnaDays ← calcPnaDays inputs.birthDate inputs.assessmentDate
  let gaBirthDays ← toDaysFromWeeksDays ⟨inputs.gaBirth.weeks, inputs.gaBirth.days⟩
  let pmaDays ← calcPmaDays gaBirthDays pnaDays
  let correctionDays ← if inputs.useCorrection then calcCorrectionDays gaBirthDays 40 else pure 0
  let correctedDays ← calcCorrectedAgeDays pnaDays correctionDays
  let correctedWeeksDays ← toWeeksDaysFromDays correctedDays
  let correctedCalendar :=
    calcCalendarBreakdownFromCorrected inputs.birthDate correctionDays inputs.assessmentDate
  let pnaCalendar := calcCalendarBreakdownFromBirth inputs.birthDate inputs.assessmentDate
  let gaBirthWeeks : Rat := (inputs.gaBirth.weeks : Rat) + (inputs.gaBirth.days : Rat) / 7
  let isPremature := gaBirthWeeks < 37
  let isCorrectionApplied := inputs.useCorrection ∧ correctionDays > 0
  let pnaWeeksDays ← toWeeksDaysFromDays pnaDays
  let pmaWeeksDays ← toWeeksDaysFromDays pmaDays
  return {
    pna := ⟨pnaWeeksDays, pnaCalendar⟩
    pnaDays := pnaDays
    pma := pmaWeeksDays
    pmaDays := pmaDays
    corrected := ⟨correctedWeeksDays, correctedDays, correctedCalendar⟩
    metadata := ⟨decide isCorrectionApplied, decide isPremature, 24, gaBirthWeeks⟩
  }

/-! ## The vanilla-JavaScript variant (js/calculator.js, js/utils.js)

Only the slice the claims touch: `Utils.daysBetween` divides elapsed
milliseconds by 86400000 with `Math.floor`; at day granularity a timestamp
is `86400000 *` the day number.  `calculateCorrectedAge` keeps the signed
corrected day count (no zero floor). -/

/-- `Utils.daysBetween`: `Math.floor((date2 - date1) / 86400000)`. -/
def daysBetween (date1 date2 : CalDate) : Int :=
  (86400000 * toDayNumber date2 - 86400000 * toDayNumber date1) / 86400000

/-- The `totalDays` field computed by `AgeCalculator.calculateCorrectedAge`
(calculator.js): `chronologicalDays - (280 - gestationalAge.totalDays)`,
with no zero floor. -/
def calculateCorrectedAgeTotalDays
    (birthDate : CalDate) (gaTotalDays : Int) (currentDate : CalDate) : Int :=
  daysBetween birthDate currentDate - (40 * 7 - gaTotalDays)

/-- Month count of the fixed-average conversion `Utils.daysToMonthsAndDays`
(js/utils.js): `Math.floor(|totalDays| / 30.44)`, stated exactly for
non-negative day counts (30.44 = 3044/100). -/
def monthsAvg (totalDays : Int) : Int := 100 * totalDays / 3044

/-! ## Concrete inputs used to instantiate the theorems below
(spec scenarios 1 and 2: term birth and a 28-week preterm birth). -/

/-- Scenario input: birth 2024-01-15, GA 40w0d, assessment 2024-02-12. -/
def inpTerm : CalculatorInputs := ⟨⟨2024, 1, 15⟩, ⟨2024, 2, 12⟩, ⟨40, 0⟩, true⟩

/-- Scenario input: birth 2024-01-15, GA 28w0d, assessment 2024-03-11. -/
def inpPreterm : CalculatorInputs := ⟨⟨2024, 1, 15⟩, ⟨2024, 3, 11⟩, ⟨28, 0⟩, true⟩

/-! ## Reduction helpers and primitive-level lemmas -/

theorem exbind_ok {α β : Type} (a : α) (f : α → Except String β) :
    ((Except.ok a : Except String α) >>= f) = f a := rfl

theorem exbind_err {α β : Type} (e : String) (f : α → Except String β) :
    ((Except.error e : Except String α) >>= f) = Except.error e := rfl

theorem expure {α : Type} (a : α) : (pure a : Except String α) = Except.ok a := rfl

theorem calcPnaDays_eq_ok {b a : CalDate} {p : Int} (h : calcPnaDays b a = .ok p) :
    p = toDayNumber a - toDayNumber b ∧ 0 ≤ p := by
  simp only [calcPnaDays, differenceInCalendarDays] at h
  split at h
  · simp_all
  · simp_all
    omega

theorem calcPnaDays_eval {b a : CalDate} (h : toDayNumber b ≤ toDayNumber a) :
    calcPnaDays b a = .ok (toDayNumber a - toDayNumber b) := by
  unfold calcPnaDays differenceInCalendarDays
  rw [if_neg (by omega)]

theorem toDaysFromWeeksDays_eq_ok {wd : WeeksDays} {g : Int}
    (h : toDaysFromWeeksDays wd = .ok g) :
    g = wd.weeks * 7 + wd.days ∧ 0 ≤ wd.weeks ∧ 0 ≤ wd.days ∧ wd.days ≤ 6 ∧ 0 ≤ g := by
  unfold toDaysFromWeeksDays at h
  split at h
  · simp_all
  · split at h
    · simp_all
    · simp_all
      omega

theorem calcPmaDays_eval {g p : Int} (hg : 0 ≤ g) (hp : 0 ≤ p) :
    calcPmaDays g p = .ok (g + p) := by
  unfold calcPmaDays
  rw [if_neg (by omega), if_neg (by omega)]

theorem calcCorrectionDays_eval {g : Int} (hg : 0 ≤ g) :
    calcCorrectionDays g 40 = .ok (max 0 (280 - g)) := by
  unfold calcCorrectionDays
  rw [if_neg (by omega), if_neg (by omega)]
  norm_num

theorem calcCorrectedAgeDays_eval {p c : Int} (hp : 0 ≤ p) (hc : 0 ≤ c) :
    calcCorrectedAgeDays p c = .ok (max 0 (p - c)) := by
  unfold calcCorrectedAgeDays
  rw [if_neg (by omega), if_neg (by omega)]

theorem toWeeksDaysFromDays_eval {d : Int} (hd : 0 ≤ d) :
    toWeeksDaysFromDays d = .ok ⟨d / 7, d % 7⟩ := by
  unfold toWeeksDaysFromDays
  rw [if_neg (by omega)]

/-- Forward evaluation of the whole pipeline: once the two fallible input
steps succeed, every later step succeeds and each result field has the
closed form below. -/
theorem computeCalculatorResults_ok (i : CalculatorInputs) (p g : Int)
    (hp : calcPnaDays i.birthDate i.assessmentDate = .ok p)
    (hg : toDaysFromWeeksDays ⟨i.gaBirth.weeks, i.gaBirth.days⟩ = .ok g) :
    ∃ r, computeCalculatorResults i = .ok r ∧
      r.pnaDays = p ∧
      r.pmaDays = g + p ∧
      r.corrected.days = max 0 (p - (if i.useCorrection then max 0 (280 - g) else 0)) ∧
      r.pna.weeksDays = ⟨p / 7, p % 7⟩ ∧
      r.pma = ⟨(g + p) / 7, (g + p) % 7⟩ ∧
      r.corrected.weeksDays = ⟨r.corrected.days / 7, r.corrected.days % 7⟩ := by
  obtain ⟨hpv, hp0⟩ := calcPnaDays_eq_ok hp
  obtain ⟨hgv, hw0, hd0, hd6, hg0⟩ := toDaysFromWeeksDays_eq_ok hg
  have h7 : (0 : Int) ≤ g + p := by omega
  cases huc : i.useCorrection
  case false =>
    simp only [computeCalculatorResults, hp, hg, huc, exbind_ok, expure, Bool.false_eq_true,
      if_false, calcPmaDays_eval hg0 hp0, calcCorrectedAgeDays_eval hp0 le_rfl,
      toWeeksDaysFromDays_eval (le_max_left 0 (p - 0)), toWeeksDaysFromDays_eval hp0,
      toWeeksDaysFromDays_eval h7]
    exact ⟨_, rfl, rfl, rfl, rfl, rfl, rfl, rfl⟩
  case true =>
    simp only [computeCalculatorResults, hp, hg, huc, exbind_ok, expure, if_true,
      calcPmaDays_eval hg0 hp0, calcCorrectionDays_eval hg0,
      calcCorrectedAgeDays_eval hp0 (le_max_left 0 (280 - g)),
      toWeeksDaysFromDays_eval (le_max_left 0 (p - max 0 (280 - g))),
      toWeeksDaysFromDays_eval hp0, toWeeksDaysFromDays_eval h7]
    exact ⟨_, rfl, rfl, rfl, rfl, rfl, rfl, rfl⟩

/-- Inversion: a successful run pins down successful runs of the two
fallible input steps. -/
theorem computeCalculatorResults_ok_inv {i : CalculatorInputs} {r : CalculatorResults}
    (h : computeCalculatorResults i = .ok r) :
    ∃ p g, calcPnaDays i.birthDate i.assessmentDate = .ok p ∧
      toDaysFromWeeksDays ⟨i.gaBirth.weeks, i.gaBirth.days⟩ = .ok g := by
  unfold computeCalculatorResults at h
  cases hp : calcPnaDays i.birthDate i.assessmentDate with
  | error e => rw [hp, exbind_err] at h; exact absurd h (by simp)
  | ok p =>
    rw [hp, exbind_ok] at h
    cases hg : toDaysFromWeeksDays ⟨i.gaBirth.weeks, i.gaBirth.days⟩ with
    | error e => rw [hg, exbind_err] at h; exact absurd h (by simp)
    | ok g => exact ⟨p, g, rfl, rfl⟩

/-! ## Claim C3: daysBetween is the exact calendar-day difference -/

/-- C3.  For all calendar dates `a`, `b`, the millisecond computation of
`Utils.daysBetween` returns exactly the signed calendar-day difference
`b - a`, and it is antisymmetric. -/
theorem daysBetween_exact_and_antisymmetric (a b : CalDate) :
    daysBetween a b = toDayNumber b - toDayNumber a ∧
    daysBetween a b = -(daysBetween b a) := by
  unfold daysBetween
  constructor <;> omega

/-! ## Claim C2: assessment strictly before birth yields an error, no result -/

/-- C2.  Whenever the assessment date precedes the birth date, the engine
entry point fails with the date-ordering error and produces no result
aggregate at all. -/
theorem no_result_when_assessment_precedes_birth (i : CalculatorInputs)
    (h : toDayNumber i.assessmentDate < toDayNumber i.birthDate) :
    computeCalculatorResults i = .error "Assessment date must be on or after birth date" := by
  have hp : calcPnaDays i.birthDate i.assessmentDate =
      .error "Assessment date must be on or after birth date" := by
    simp only [calcPnaDays, differenceInCalendarDays]
    rw [if_pos (by omega)]
  simp only [computeCalculatorResults, hp, exbind_err]

/-- Witness for C2 at a concrete input (assessment one day before birth). -/
theorem no_result_when_assessment_precedes_birth_witness :
    computeCalculatorResults ⟨⟨2024, 1, 15⟩, ⟨2024, 1, 14⟩, ⟨40, 0⟩, true⟩ =
      .error "Assessment date must be on or after birth date" :=
  no_result_when_assessment_precedes_birth ⟨⟨2024, 1, 15⟩, ⟨2024, 1, 14⟩, ⟨40, 0⟩, true⟩
    (by decide)

/-! ## Claim C5: gestational-age validation boundaries -/

/-- C5.  `validateGestationalAge` accepts exactly the boundary-inclusive
range (weeks 22..42, days 0..6); one unit outside either bound is rejected,
and weeks 40 with days 7 is rejected on the days rule. -/
theorem validateGestationalAge_boundary_characterization :
    (∀ w d : Int, validateGestationalAge ⟨w, d⟩ = .ok () ↔
        (22 ≤ w ∧ w ≤ 42 ∧ 0 ≤ d ∧ d ≤ 6)) ∧
    validateGestationalAge ⟨40, 7⟩ = .error "Gestational age days must be in [0..6]" ∧
    validateGestationalAge ⟨22, 0⟩ = .ok () ∧
    validateGestationalAge ⟨42, 6⟩ = .ok () ∧
    validateGestationalAge ⟨21, 6⟩ ≠ .ok () ∧
    validateGestationalAge ⟨43, 0⟩ ≠ .ok () ∧
    validateGestationalAge ⟨40, -1⟩ ≠ .ok () := by
  refine ⟨fun w d => ?_, by rfl, by rfl, by rfl,
    by simp [validateGestationalAge], by simp [validateGestationalAge],
    by simp [validateGestationalAge]⟩
  unfold validateGestationalAge
  dsimp only
  split_ifs <;> simp <;> omega

/-! ## Claim C7: weeks-days conversion round-trips in magnitude -/

/-- C7.  Wherever `toWeeksDaysFromDays` is defined (it throws on negative
input), the result satisfies `weeks * 7 + days = |input|`. -/
theorem toWeeksDays_magnitude_roundtrip (d : Int) (w : WeeksDays)
    (h : toWeeksDaysFromDays d = .ok w) : w.weeks * 7 + w.days = |d| := by
  unfold toWeeksDaysFromDays at h
  split at h
  · simp at h
  · simp only [Except.ok.injEq] at h
    subst h
    rw [abs_of_nonneg (by omega)]
    simp only []
    omega

/-- Witness for C7 at day count 23 (3 weeks 2 days). -/
theorem toWeeksDays_magnitude_roundtrip_witness :
    (⟨3, 2⟩ : WeeksDays).weeks * 7 + (⟨3, 2⟩ : WeeksDays).days = |(23 : Int)| :=
  toWeeksDays_magnitude_roundtrip 23 ⟨3, 2⟩ (by rfl)

/-! ## Claim C6: postmenstrual age is gestational days plus postnatal days -/

/-- C6.  On every input whose two fallible steps succeed, the engine
succeeds and reports `pmaDays = (weeks * 7 + days) + pnaDays`, a
non-negative sum. -/
theorem pma_is_gestational_plus_postnatal (i : CalculatorInputs) (p g : Int)
    (hp : calcPnaDays i.birthDate i.assessmentDate = .ok p)
    (hg : toDaysFromWeeksDays ⟨i.gaBirth.weeks, i.gaBirth.days⟩ = .ok g) :
    ∃ r, computeCalculatorResults i = .ok r ∧
      r.pmaDays = (i.gaBirth.weeks * 7 + i.gaBirth.days) + r.pnaDays ∧
      0 ≤ r.pmaDays := by
  obtain ⟨hpv, hp0⟩ := calcPnaDays_eq_ok hp
  obtain ⟨hgv, hw0, hd0, hd6, hg0⟩ := toDaysFromWeeksDays_eq_ok hg
  simp only [] at hgv hw0 hd0 hd6
  obtain ⟨r, hok, f1, f2, _⟩ := computeCalculatorResults_ok i p g hp hg
  exact ⟨r, hok, by omega, by omega⟩

/-- Witness for C6 at the preterm scenario input. -/
theorem pma_is_gestational_plus_postnatal_witness :
    ∃ r, computeCalculatorResults inpPreterm = .ok r ∧
      r.pmaDays = (inpPreterm.gaBirth.weeks * 7 + inpPreterm.gaBirth.days) + r.pnaDays ∧
      0 ≤ r.pmaDays :=
  pma_is_gestational_plus_postnatal inpPreterm 56 196 (by rfl) (by rfl)

/-! ## Claim C1: the engine floors the corrected day count at zero -/

/-- C1 counterexample.  Preterm scenario (birth 2024-01-15, GA 28w0d,
assessment 2024-03-11): pnaDays = 56 and correctionDays = 84, yet the
engine reports corrected day count 0, not the signed value 56 - 84 = -28
the claim requires; the vanilla-JavaScript variant reports -28. -/
theorem corrected_days_not_signed_cex :
    (computeCalculatorResults inpPreterm).map (fun r => (r.pnaDays, r.corrected.days)) =
      .ok (56, 0) ∧
    calcCorrectionDays (28 * 7 + 0) 40 = .ok 84 ∧
    calculateCorrectedAgeTotalDays ⟨2024, 1, 15⟩ (28 * 7 + 0) ⟨2024, 3, 11⟩ = -28 ∧
    ((0 : Int) = 56 - 84 → False) := by
  refine ⟨by rfl, by rfl, by rfl, by omega⟩

/-- C1 as amended.  The engine returns
`corrected.days = max 0 (pnaDays - correctionDays)`: the signed difference
is clamped at zero whenever it is negative, while the JavaScript variant's
`calculateCorrectedAge` keeps the unclamped signed value. -/
theorem corrected_days_clamped_formula (i : CalculatorInputs) (p g : Int)
    (hp : calcPnaDays i.birthDate i.assessmentDate = .ok p)
    (hg : toDaysFromWeeksDays ⟨i.gaBirth.weeks, i.gaBirth.days⟩ = .ok g) :
    ∃ r, computeCalculatorResults i = .ok r ∧
      r.corrected.days = max 0 (r.pnaDays -
        (if i.useCorrection then max 0 (280 - (i.gaBirth.weeks * 7 + i.gaBirth.days)) else 0)) ∧
      calculateCorrectedAgeTotalDays i.birthDate
          (i.gaBirth.weeks * 7 + i.gaBirth.days) i.assessmentDate =
        r.pnaDays - (280 - (i.gaBirth.weeks * 7 + i.gaBirth.days)) := by
  obtain ⟨hpv, hp0⟩ := calcPnaDays_eq_ok hp
  obtain ⟨hgv, hw0, hd0, hd6, hg0⟩ := toDaysFromWeeksDays_eq_ok hg
  simp only [] at hgv
  obtain ⟨r, hok, f1, f2, f3, _⟩ := computeCalculatorResults_ok i p g hp hg
  refine ⟨r, hok, ?_, ?_⟩
  · rw [f3, f1, ← hgv]
  · unfold calculateCorrectedAgeTotalDays daysBetween
    rw [f1, ← hgv]
    omega

/-- Witness for the amended C1 at the preterm scenario input. -/
theorem corrected_days_clamped_formula_witness :
    ∃ r, computeCalculatorResults inpPreterm = .ok r ∧
      r.corrected.days = max 0 (r.pnaDays -
        (if inpPreterm.useCorrection then
          max 0 (280 - (inpPreterm.gaBirth.weeks * 7 + inpPreterm.gaBirth.days)) else 0)) ∧
      calculateCorrectedAgeTotalDays inpPreterm.birthDate
          (inpPreterm.gaBirth.weeks * 7 + inpPreterm.gaBirth.days) inpPreterm.assessmentDate =
        r.pnaDays - (280 - (inpPreterm.gaBirth.weeks * 7 + inpPreterm.gaBirth.days)) :=
  corrected_days_clamped_formula inpPreterm 56 196 (by rfl) (by rfl)

/-! ## Claim C8: moving the assessment one day later -/

/-- C8.  Replacing the assessment date by the next calendar day increases
`pnaDays` and `pmaDays` by exactly one, and increases the corrected day
count by exactly one whenever that count is not floored at zero. -/
theorem assessment_next_day_monotonic (i : CalculatorInputs) (d2 : CalDate) (p g : Int)
    (hp : calcPnaDays i.birthDate i.assessmentDate = .ok p)
    (hg : toDaysFromWeeksDays ⟨i.gaBirth.weeks, i.gaBirth.days⟩ = .ok g)
    (hd : toDayNumber d2 = toDayNumber i.assessmentDate + 1) :
    ∃ r r2, computeCalculatorResults i = .ok r ∧
      computeCalculatorResults {i with assessmentDate := d2} = .ok r2 ∧
      r2.pnaDays = r.pnaDays + 1 ∧
      r2.pmaDays = r.pmaDays + 1 ∧
      (0 < r2.corrected.days → r2.corrected.days = r.corrected.days + 1) := by
  obtain ⟨hpv, hp0⟩ := calcPnaDays_eq_ok hp
  have hp2 : calcPnaDays i.birthDate d2 = .ok (p + 1) := by
    have h := calcPnaDays_eval (b := i.birthDate) (a := d2) (by omega)
    rw [h]
    congr 1
    omega
  obtain ⟨r, hok, f1, f2, f3, _⟩ := computeCalculatorResults_ok i p g hp hg
  obtain ⟨r2, hok2, g1, g2, g3, _⟩ :=
    computeCalculatorResults_ok {i with assessmentDate := d2} (p + 1) g hp2 hg
  dsimp only at g3
  refine ⟨r, r2, hok, hok2, by omega, by omega, ?_⟩
  intro hpos
  rw [g3] at hpos
  rw [g3, f3]
  omega

/-- Witness for C8: preterm scenario, assessment moved from 2024-03-11 to
2024-03-12. -/
theorem assessment_next_day_monotonic_witness :
    ∃ r r2, computeCalculatorResults inpPreterm = .ok r ∧
      computeCalculatorResults {inpPreterm with assessmentDate := ⟨2024, 3, 12⟩} = .ok r2 ∧
      r2.pnaDays = r.pnaDays + 1 ∧
      r2.pmaDays = r.pmaDays + 1 ∧
      (0 < r2.corrected.days → r2.corrected.days = r.corrected.days + 1) :=
  assessment_next_day_monotonic inpPreterm ⟨2024, 3, 12⟩ 56 196 (by rfl) (by rfl) (by decide)

/-! ## Claim C10: the weeks-days conversions inside the pipeline never see a
negative argument -/

/-- C10.  On every input where `calcPnaDays` succeeds (and the gestational
age converts), the three day counts handed to `toWeeksDaysFromDays` inside
`computeCalculatorResults` are non-negative, so its negative-input error
branch is unreachable and the whole pipeline succeeds. -/
theorem toWeeksDaysFromDays_never_negative_in_pipeline (i : CalculatorInputs) (p g : Int)
    (hp : calcPnaDays i.birthDate i.assessmentDate = .ok p)
    (hg : toDaysFromWeeksDays ⟨i.gaBirth.weeks, i.gaBirth.days⟩ = .ok g) :
    0 ≤ p ∧ 0 ≤ g + p ∧
    ∃ r, computeCalculatorResults i = .ok r ∧
      0 ≤ r.pnaDays ∧ 0 ≤ r.pmaDays ∧ 0 ≤ r.corrected.days ∧
      toWeeksDaysFromDays r.pnaDays = .ok ⟨r.pnaDays / 7, r.pnaDays % 7⟩ ∧
      toWeeksDaysFromDays r.pmaDays = .ok ⟨r.pmaDays / 7, r.pmaDays % 7⟩ ∧
      toWeeksDaysFromDays r.corrected.days =
        .ok ⟨r.corrected.days / 7, r.corrected.days % 7⟩ := by
  obtain ⟨hpv, hp0⟩ := calcPnaDays_eq_ok hp
  obtain ⟨hgv, hw0, hd0, hd6, hg0⟩ := toDaysFromWeeksDays_eq_ok hg
  obtain ⟨r, hok, f1, f2, f3, _⟩ := computeCalculatorResults_ok i p g hp hg
  have h1 : 0 ≤ r.pnaDays := by omega
  have h2 : 0 ≤ r.pmaDays := by omega
  have h3 : 0 ≤ r.corrected.days := by rw [f3]; omega
  exact ⟨hp0, by omega, r, hok, h1, h2, h3, toWeeksDaysFromDays_eval h1,
    toWeeksDaysFromDays_eval h2, toWeeksDaysFromDays_eval h3⟩

/-- Witness for C10 at the preterm scenario input. -/
theorem toWeeksDaysFromDays_never_negative_in_pipeline_witness :
    0 ≤ (56 : Int) ∧ 0 ≤ (196 : Int) + 56 ∧
    ∃ r, computeCalculatorResults inpPreterm = .ok r ∧
      0 ≤ r.pnaDays ∧ 0 ≤ r.pmaDays ∧ 0 ≤ r.corrected.days ∧
      toWeeksDaysFromDays r.pnaDays = .ok ⟨r.pnaDays / 7, r.pnaDays % 7⟩ ∧
      toWeeksDaysFromDays r.pmaDays = .ok ⟨r.pmaDays / 7, r.pmaDays % 7⟩ ∧
      toWeeksDaysFromDays r.corrected.days =
        .ok ⟨r.corrected.days / 7, r.corrected.days % 7⟩ :=
  toWeeksDaysFromDays_never_negative_in_pipeline inpPreterm 56 196 (by rfl) (by rfl)

/-! ## Calendar-order lemmas

Facts about `toDayNumber` needed to analyse `intervalToDuration` on spans
with `start <= end`: year and month monotonicity, and the agreement of the
day-number order with lexicographic (year, month, day) order on valid
dates. -/

theorem daysInMonth_pos (y m : Int) : 1 ≤ daysInMonth y m := by
  unfold daysInMonth
  split_ifs <;> omega

theorem daysInMonth_le_1584 {y m d : Int} (h : d ≤ daysInMonth y m) :
    d ≤ daysInMonth 1584 m := by
  unfold daysInMonth IsLeap at h ⊢
  split_ifs at h ⊢ <;> omega

theorem daysBeforeYear_succ (y : Int) :
    daysBeforeYear (y + 1) = daysBeforeYear y + 365 + leapCorr y := by
  unfold daysBeforeYear leapCorr IsLeap
  split_ifs <;> omega

theorem daysBeforeYear_mono {y1 y2 : Int} (h : y1 ≤ y2) :
    daysBeforeYear y1 ≤ daysBeforeYear y2 := by
  unfold daysBeforeYear leapCorr IsLeap
  split_ifs <;> omega

theorem daysBeforeMonth_nonneg {y m : Int} (h : 1 ≤ m) : 0 ≤ daysBeforeMonth y m := by
  unfold daysBeforeMonth cumMonths
  split_ifs <;> omega

theorem daysBeforeMonth_dim_bound {y m : Int} (h1 : 1 ≤ m) (h2 : m ≤ 12) :
    daysBeforeMonth y m + daysInMonth y m ≤ 365 + leapCorr y := by
  unfold daysBeforeMonth cumMonths daysInMonth leapCorr IsLeap
  interval_cases m <;> split_ifs <;> omega

set_option maxHeartbeats 1000000 in
theorem daysBeforeMonth_succ {y m : Int} (h1 : 1 ≤ m) (h2 : m ≤ 11) :
    daysBeforeMonth y (m + 1) = daysBeforeMonth y m + daysInMonth y m := by
  unfold daysBeforeMonth cumMonths daysInMonth IsLeap
  interval_cases m <;> split_ifs <;> omega

theorem daysBeforeMonth_strict {y m1 m2 : Int} (h1 : 1 ≤ m1) (h : m1 < m2) (h2 : m2 ≤ 12) :
    daysBeforeMonth y m1 + daysInMonth y m1 ≤ daysBeforeMonth y m2 := by
  have key : ∀ n : Int, m1 + 1 ≤ n → n ≤ 12 →
      daysBeforeMonth y m1 + daysInMonth y m1 ≤ daysBeforeMonth y n := by
    intro n hn
    refine Int.le_induction
      (P := fun k => k ≤ 12 → daysBeforeMonth y m1 + daysInMonth y m1 ≤ daysBeforeMonth y k)
      ?_ ?_ n hn
    · intro _
      rw [daysBeforeMonth_succ h1 (by omega)]
    · intro k hk ih h12
      have hd := daysBeforeMonth_succ (y := y) (m := k) (by omega) (by omega)
      have hp := daysInMonth_pos y k
      have := ih (by omega)
      omega
  exact key m2 (by omega) h2

theorem toDayNumber_lt_of_year_lt {a b : CalDate} (ha : ValidDate a) (hb : ValidDate b)
    (h : a.year < b.year) : toDayNumber a < toDayNumber b := by
  obtain ⟨ha1, ha2, ha3, ha4⟩ := ha
  obtain ⟨hb1, hb2, hb3, hb4⟩ := hb
  have h1 := daysBeforeMonth_dim_bound (y := a.year) ha1 ha2
  have h2 := daysBeforeMonth_nonneg (y := b.year) hb1
  have h3 := daysBeforeYear_succ a.year
  have h4 := daysBeforeYear_mono (show a.year + 1 ≤ b.year by omega)
  unfold toDayNumber
  omega

theorem toDayNumber_le_of_lex {a b : CalDate} (ha : ValidDate a) (hb : ValidDate b)
    (h : a.year < b.year ∨ (a.year = b.year ∧
      (a.month < b.month ∨ (a.month = b.month ∧ a.day ≤ b.day)))) :
    toDayNumber a ≤ toDayNumber b := by
  obtain ⟨ha1, ha2, ha3, ha4⟩ := ha
  obtain ⟨hb1, hb2, hb3, hb4⟩ := hb
  rcases h with h | ⟨hy, h | ⟨hm, hd⟩⟩
  · exact le_of_lt (toDayNumber_lt_of_year_lt ⟨ha1, ha2, ha3, ha4⟩ ⟨hb1, hb2, hb3, hb4⟩ h)
  · have hs := daysBeforeMonth_strict (y := b.year) ha1 h hb2
    have ha4' : a.day ≤ daysInMonth b.year a.month := by rw [← hy]; exact ha4
    unfold toDayNumber
    rw [hy]
    omega
  · unfold toDayNumber
    rw [hy, hm]
    omega

theorem toDayNumber_lt_of_lex {a b : CalDate} (ha : ValidDate a) (hb : ValidDate b)
    (h : a.year < b.year ∨ (a.year = b.year ∧
      (a.month < b.month ∨ (a.month = b.month ∧ a.day < b.day)))) :
    toDayNumber a < toDayNumber b := by
  rcases h with h | ⟨hy, h | ⟨hm, hd⟩⟩
  · exact toDayNumber_lt_of_year_lt ha hb h
  · have h1 := toDayNumber_le_of_lex ha hb (Or.inr ⟨hy, Or.inl h⟩)
    -- sharpen: strictly less because b has at least one more day in the month
    obtain ⟨ha1, ha2, ha3, ha4⟩ := ha
    obtain ⟨hb1, hb2, hb3, hb4⟩ := hb
    have hs := daysBeforeMonth_strict (y := b.year) ha1 h hb2
    have ha4' : a.day ≤ daysInMonth b.year a.month := by rw [← hy]; exact ha4
    unfold toDayNumber
    rw [hy]
    omega
  · obtain ⟨ha1, ha2, ha3, ha4⟩ := ha
    unfold toDayNumber
    rw [hy, hm]
    omega

theorem lex_of_toDayNumber_lt {a b : CalDate} (ha : ValidDate a) (hb : ValidDate b)
    (h : toDayNumber a < toDayNumber b) :
    a.year < b.year ∨ (a.year = b.year ∧
      (a.month < b.month ∨ (a.month = b.month ∧ a.day < b.day))) := by
  by_contra hc
  have hlex : b.year < a.year ∨ (b.year = a.year ∧
      (b.month < a.month ∨ (b.month = a.month ∧ b.day ≤ a.day))) := by omega
  have := toDayNumber_le_of_lex hb ha hlex
  omega

theorem lex_of_toDayNumber_le {a b : CalDate} (ha : ValidDate a) (hb : ValidDate b)
    (h : toDayNumber a ≤ toDayNumber b) :
    a.year < b.year ∨ (a.year = b.year ∧
      (a.month < b.month ∨ (a.month = b.month ∧ a.day ≤ b.day))) := by
  by_contra hc
  have hlex : b.year < a.year ∨ (b.year = a.year ∧
      (b.month < a.month ∨ (b.month = a.month ∧ b.day < a.day))) := by omega
  have := toDayNumber_lt_of_lex hb ha hlex
  omega

/-- `addMonths` by a multiple of 12 keeps the month, shifts the year, and
only ever lowers the day (clamping to the target February if needed). -/
theorem dfAddMonths_12k (x : CalDate) (k : Int) (hx : ValidDate x) :
    ∃ d', dfAddMonths x (12 * k) = ⟨x.year + k, x.month, d'⟩ ∧
      1 ≤ d' ∧ d' ≤ x.day ∧ d' ≤ daysInMonth (x.year + k) x.month := by
  obtain ⟨hx1, hx2, hx3, hx4⟩ := hx
  have ht1 : (12 * x.year + (x.month - 1) + 12 * k) / 12 = x.year + k := by omega
  have ht2 : (12 * x.year + (x.month - 1) + 12 * k) % 12 + 1 = x.month := by omega
  simp only [dfAddMonths]
  rw [ht1, ht2]
  have hdim := daysInMonth_pos (x.year + k) x.month
  split_ifs with hd
  · exact ⟨_, rfl, by omega, by omega, le_rfl⟩
  · exact ⟨x.day, rfl, hx3, le_rfl, by omega⟩

/-- The years step of `intervalToDuration` never overshoots: for
`start <= end` the years component is non-negative, and the start advanced
by that many years is a valid date still on or before the end. -/
theorem ituYears_facts {s e : CalDate} (hs : ValidDate s) (he : ValidDate e)
    (hle : toDayNumber s ≤ toDayNumber e) :
    0 ≤ ituYears s e ∧ ValidDate (ituRemMonths s e) ∧
      toDayNumber (ituRemMonths s e) ≤ toDayNumber e := by
  rcases eq_or_lt_of_le hle with heq | hlt
  · have hsign : compareAscD e s = 0 := by
      unfold compareAscD
      rw [if_neg (by omega), if_neg (by omega)]
    have hy : ituYears s e = 0 := by
      simp only [ituYears, dfDiffInYears]
      rw [hsign]
      ring
    have hrm : ituRemMonths s e = s := by
      unfold ituRemMonths
      rw [if_pos hy]
    rw [hy, hrm]
    exact ⟨le_rfl, hs, hle⟩
  · have hsign : compareAscD e s = 1 := by
      unfold compareAscD
      rw [if_neg (by omega), if_pos (by omega)]
    have hv84s : ValidDate ⟨1584, s.month, s.day⟩ :=
      ⟨hs.1, hs.2.1, hs.2.2.1, daysInMonth_le_1584 hs.2.2.2⟩
    have hv84e : ValidDate ⟨1584, e.month, e.day⟩ :=
      ⟨he.1, he.2.1, he.2.2.1, daysInMonth_le_1584 he.2.2.2⟩
    have hyy : s.year ≤ e.year := by
      by_contra hcon
      have := toDayNumber_lt_of_year_lt he hs (by omega)
      omega
    by_cases hnf : compareAscD ⟨1584, e.month, e.day⟩ ⟨1584, s.month, s.day⟩ = -1
    · have hmd : toDayNumber ⟨1584, e.month, e.day⟩ < toDayNumber ⟨1584, s.month, s.day⟩ := by
        by_contra hcon
        unfold compareAscD at hnf
        rw [if_neg (by omega)] at hnf
        split_ifs at hnf
      have hlex84 := lex_of_toDayNumber_lt hv84e hv84s hmd
      have hmd' : e.month < s.month ∨ (e.month = s.month ∧ e.day < s.day) := by
        dsimp only at hlex84
        rcases hlex84 with h | ⟨_, h⟩
        · omega
        · exact h
      have hys : s.year < e.year := by
        rcases eq_or_lt_of_le hyy with he2 | he2
        · exfalso
          have := toDayNumber_lt_of_lex he hs (by omega)
          omega
        · exact he2
      have hy : ituYears s e = e.year - s.year - 1 := by
        simp only [ituYears, dfDiffInYears]
        rw [hsign, if_pos hnf]
        rw [abs_of_nonneg (show (0 : Int) ≤ e.year - s.year by omega)]
        ring
      by_cases hzero : e.year - s.year - 1 = 0
      · have hrm : ituRemMonths s e = s := by
          unfold ituRemMonths
          rw [if_pos (by rw [hy]; exact hzero)]
        rw [hy, hrm]
        exact ⟨by omega, hs, hle⟩
      · have hrm0 : ituRemMonths s e = dfAddMonths s (12 * (e.year - s.year - 1)) := by
          unfold ituRemMonths
          rw [if_neg (by rw [hy]; exact hzero), hy]
        obtain ⟨d', hD, hd1, hd2, hd3⟩ := dfAddMonths_12k s (e.year - s.year - 1) hs
        rw [hy, hrm0, hD]
        have hvnew : ValidDate ⟨s.year + (e.year - s.year - 1), s.month, d'⟩ :=
          ⟨hs.1, hs.2.1, hd1, hd3⟩
        refine ⟨by omega, hvnew, ?_⟩
        exact le_of_lt (toDayNumber_lt_of_year_lt hvnew he (by dsimp only; omega))
    · have hc84 : toDayNumber ⟨1584, s.month, s.day⟩ ≤ toDayNumber ⟨1584, e.month, e.day⟩ := by
        by_contra hcon
        apply hnf
        unfold compareAscD
        rw [if_pos (by omega)]
      have hlex84 := lex_of_toDayNumber_le hv84s hv84e hc84
      have hmd' : s.month < e.month ∨ (s.month = e.month ∧ s.day ≤ e.day) := by
        dsimp only at hlex84
        rcases hlex84 with h | ⟨_, h⟩
        · omega
        · exact h
      have hy : ituYears s e = e.year - s.year := by
        simp only [ituYears, dfDiffInYears]
        rw [hsign, if_neg hnf]
        rw [abs_of_nonneg (show (0 : Int) ≤ e.year - s.year by omega)]
        ring
      by_cases hzero : e.year - s.year = 0
      · have hrm : ituRemMonths s e = s := by
          unfold ituRemMonths
          rw [if_pos (by rw [hy]; exact hzero)]
        rw [hy, hrm]
        exact ⟨by omega, hs, hle⟩
      · have hrm0 : ituRemMonths s e = dfAddMonths s (12 * (e.year - s.year)) := by
          unfold ituRemMonths
          rw [if_neg (by rw [hy]; exact hzero), hy]
        obtain ⟨d', hD, hd1, hd2, hd3⟩ := dfAddMonths_12k s (e.year - s.year) hs
        rw [hy, hrm0, hD]
        have hvnew : ValidDate ⟨s.year + (e.year - s.year), s.month, d'⟩ :=
          ⟨hs.1, hs.2.1, hd1, hd3⟩
        refine ⟨by omega, hvnew, ?_⟩
        apply toDayNumber_le_of_lex hvnew he
        dsimp only
        omega

/-- `differenceInMonths later earlier` is non-negative whenever
`earlier <= later`. -/
theorem dfDiffInMonths_nonneg {later earlier : CalDate}
    (h : toDayNumber earlier ≤ toDayNumber later) : 0 ≤ dfDiffInMonths later earlier := by
  rcases eq_or_lt_of_le h with heq | hlt
  · have hsign : compareAscD later earlier = 0 := by
      unfold compareAscD
      rw [if_neg (by omega), if_neg (by omega)]
    simp only [dfDiffInMonths]
    rw [hsign]
    split_ifs <;> simp
  · have hsign : compareAscD later earlier = 1 := by
      unfold compareAscD
      rw [if_neg (by omega), if_pos (by omega)]
    simp only [dfDiffInMonths]
    rw [hsign]
    split_ifs <;> omega

/-! ## Claim C4: the calendar breakdown and actual calendar lengths -/

/-- C4 counterexample.  On the leap-year span 2024-01-30 to 2024-02-28
(start < end), the months step of the breakdown counts one full month but
`addMonths` by that month lands on 2024-02-29, one day past the end, so the
weeks and days fields come out as -1: the decomposition into whole years,
months, weeks and remaining days fails on this ordered pair. -/
theorem calendar_breakdown_leap_february_cex :
    toDayNumber ⟨2024, 1, 30⟩ < toDayNumber ⟨2024, 2, 28⟩ ∧
    calcCalendarBreakdownFromBirth ⟨2024, 1, 30⟩ ⟨2024, 2, 28⟩ = ⟨0, 1, -1, -1⟩ ∧
    dfAddMonths ⟨2024, 1, 30⟩ 1 = ⟨2024, 2, 29⟩ ∧
    toDayNumber ⟨2024, 2, 28⟩ < toDayNumber (dfAddMonths ⟨2024, 1, 30⟩ 1) := by
  exact ⟨by decide, by rfl, by rfl, by decide⟩

/-- C4 as amended.  For every valid ordered pair `start <= end` on which the
months step does not overshoot the end (equivalently, the remaining day
count is non-negative — the leap-February edge above is the exception), the
breakdown consists of non-negative whole years and months measured by
actual calendar arithmetic, plus a weeks/days split (days in 0..6) of the
exact day-count remainder left after advancing the start by those years and
months with `addMonths`; the spec's non-leap example Jan 30 to Feb 28 gives
{0 years, 1 month, 0 weeks, 0 days}, where a fixed 30.44-day month would
give 0 months for the same 29-day span. -/
theorem calendar_breakdown_uses_actual_calendar_lengths (s e : CalDate)
    (hs : ValidDate s) (he : ValidDate e) (hle : toDayNumber s ≤ toDayNumber e)
    (hnn : 0 ≤ ituDaysTotal s e) :
    0 ≤ (calcCalendarBreakdownFromBirth s e).years ∧
    0 ≤ (calcCalendarBreakdownFromBirth s e).months ∧
    0 ≤ (calcCalendarBreakdownFromBirth s e).weeks ∧
    0 ≤ (calcCalendarBreakdownFromBirth s e).days ∧
    (calcCalendarBreakdownFromBirth s e).days ≤ 6 ∧
    7 * (calcCalendarBreakdownFromBirth s e).weeks + (calcCalendarBreakdownFromBirth s e).days =
      toDayNumber e - toDayNumber (ituRemDays s e) ∧
    calcCalendarBreakdownFromBirth ⟨2023, 1, 30⟩ ⟨2023, 2, 28⟩ = ⟨0, 1, 0, 0⟩ ∧
    monthsAvg 29 = 0 := by
  have hbd : calcCalendarBreakdownFromBirth s e =
      ⟨ituYears s e, ituMonths s e, ituDaysTotal s e / 7, jsRem (ituDaysTotal s e) 7⟩ := by
    unfold calcCalendarBreakdownFromBirth
    rw [if_neg (by omega)]
  obtain ⟨hy0, hvrm, hrmle⟩ := ituYears_facts hs he hle
  have hm0 : 0 ≤ ituMonths s e := dfDiffInMonths_nonneg hrmle
  have hjs : jsRem (ituDaysTotal s e) 7 = ituDaysTotal s e % 7 := by
    unfold jsRem
    rw [if_neg (by omega)]
  have hdt : ituDaysTotal s e = toDayNumber e - toDayNumber (ituRemDays s e) := rfl
  rw [hbd]
  dsimp only
  rw [hjs]
  refine ⟨hy0, hm0, by omega, by omega, by omega, by omega, by rfl, by rfl⟩

/-- Witness for the amended C4: birth 2024-01-15 to assessment 2024-03-11
(the span is 1 month plus 25 days = 3 weeks 4 days). -/
theorem calendar_breakdown_uses_actual_calendar_lengths_witness :
    0 ≤ (calcCalendarBreakdownFromBirth ⟨2024, 1, 15⟩ ⟨2024, 3, 11⟩).years ∧
    0 ≤ (calcCalendarBreakdownFromBirth ⟨2024, 1, 15⟩ ⟨2024, 3, 11⟩).months ∧
    0 ≤ (calcCalendarBreakdownFromBirth ⟨2024, 1, 15⟩ ⟨2024, 3, 11⟩).weeks ∧
    0 ≤ (calcCalendarBreakdownFromBirth ⟨2024, 1, 15⟩ ⟨2024, 3, 11⟩).days ∧
    (calcCalendarBreakdownFromBirth ⟨2024, 1, 15⟩ ⟨2024, 3, 11⟩).days ≤ 6 ∧
    7 * (calcCalendarBreakdownFromBirth ⟨2024, 1, 15⟩ ⟨2024, 3, 11⟩).weeks +
        (calcCalendarBreakdownFromBirth ⟨2024, 1, 15⟩ ⟨2024, 3, 11⟩).days =
      toDayNumber ⟨2024, 3, 11⟩ - toDayNumber (ituRemDays ⟨2024, 1, 15⟩ ⟨2024, 3, 11⟩) ∧
    calcCalendarBreakdownFromBirth ⟨2023, 1, 30⟩ ⟨2023, 2, 28⟩ = ⟨0, 1, 0, 0⟩ ∧
    monthsAvg 29 = 0 :=
  calendar_breakdown_uses_actual_calendar_lengths ⟨2024, 1, 15⟩ ⟨2024, 3, 11⟩
    (by decide) (by decide) (by decide) (by decide)

/-! ## Claim C9: zero breakdowns for reversed and empty spans -/

/-- C9 counterexample to the parenthetical "no negative calendar fields are
ever produced": a forward span (start < end) whose breakdown has negative
weeks and days fields. -/
theorem calendar_breakdown_negative_fields_cex :
    toDayNumber ⟨2024, 1, 30⟩ < toDayNumber ⟨2024, 2, 28⟩ ∧
    (calcCalendarBreakdownFromBirth ⟨2024, 1, 30⟩ ⟨2024, 2, 28⟩).weeks < 0 ∧
    (calcCalendarBreakdownFromBirth ⟨2024, 1, 30⟩ ⟨2024, 2, 28⟩).days < 0 := by
  exact ⟨by decide, by decide, by decide⟩

/-- C9 as amended.  A span whose end precedes its start yields the all-zero
breakdown (in both breakdown entry points), and the breakdown of any date to
itself is the zero breakdown; negative fields are excluded on reversed
spans by these clamps, though not on every forward span. -/
theorem calendar_breakdown_zero_spans (s e b : CalDate) (c : Int) :
    (toDayNumber e < toDayNumber s → calcCalendarBreakdownFromBirth s e = ⟨0, 0, 0, 0⟩) ∧
    calcCalendarBreakdownFromBirth s s = ⟨0, 0, 0, 0⟩ ∧
    (toDayNumber e < toDayNumber (addDays b c) →
      calcCalendarBreakdownFromCorrected b c e = ⟨0, 0, 0, 0⟩) := by
  refine ⟨?_, ?_, ?_⟩
  · intro h
    unfold calcCalendarBreakdownFromBirth
    rw [if_pos h]
  · have hsign : compareAscD s s = 0 := by
      unfold compareAscD
      rw [if_neg (by omega), if_neg (by omega)]
    have hy : ituYears s s = 0 := by
      simp only [ituYears, dfDiffInYears]
      rw [hsign]
      ring
    have hrm : ituRemMonths s s = s := by
      unfold ituRemMonths
      rw [if_pos hy]
    have hm : ituMonths s s = 0 := by
      unfold ituMonths
      rw [hrm]
      simp only [dfDiffInMonths, differenceInCalendarMonths]
      rw [if_pos (by simp)]
    have hrd : ituRemDays s s = s := by
      unfold ituRemDays
      rw [if_pos hm, hrm]
    have hdt : ituDaysTotal s s = 0 := by
      unfold ituDaysTotal
      rw [hrd]
      omega
    unfold calcCalendarBreakdownFromBirth
    rw [if_neg (by omega), hy, hm, hdt]
    rfl
  · intro h
    unfold calcCalendarBreakdownFromCorrected
    rw [if_pos h]

/-- Witness for C9: a reversed span, an empty span, and a reversed
corrected-reference span, each yielding the zero breakdown. -/
theorem calendar_breakdown_zero_spans_witness :
    calcCalendarBreakdownFromBirth ⟨2024, 1, 15⟩ ⟨2024, 1, 14⟩ = ⟨0, 0, 0, 0⟩ ∧
    calcCalendarBreakdownFromBirth ⟨2024, 2, 29⟩ ⟨2024, 2, 29⟩ = ⟨0, 0, 0, 0⟩ ∧
    calcCalendarBreakdownFromCorrected ⟨2024, 1, 15⟩ 84 ⟨2024, 3, 11⟩ = ⟨0, 0, 0, 0⟩ :=
  ⟨(calendar_breakdown_zero_spans ⟨2024, 1, 15⟩ ⟨2024, 1, 14⟩ ⟨2024, 1, 15⟩ 84).1 (by decide),
   (calendar_breakdown_zero_spans ⟨2024, 2, 29⟩ ⟨2024, 1, 14⟩ ⟨2024, 1, 15⟩ 84).2.1,
   (calendar_breakdown_zero_spans ⟨2024, 1, 15⟩ ⟨2024, 3, 11⟩ ⟨2024, 1, 15⟩ 84).2.2 (by decide)⟩
